import Mathlib

/-!
Verification of the allocation core of the ProjectAllocationManagerMCP service
(`service/allocation_service.py`): a shallow embedding of the entity store,
the overlap engine, and the create/update validation paths, together with
theorems about the capacity and duplicate-assignment invariants, the fixed
validation order, and the frame conditions of the two mutating operations.

Python `datetime` values are modelled as calendar dates (the service always
normalizes to date granularity: parsed dates carry midnight time, and the
defaulted "today" start only ever gets compared against midnight-valued
dates, where date-level lexicographic comparison agrees with the timestamp
comparison).  Python's unbounded `int` is modelled as `Int`.  The random
`uuid.uuid4()` string is passed in as an explicit parameter.  The formatted
message strings are modelled symbolically: one `Msg` constructor per distinct
format string in the source, carrying exactly the values interpolated there.
-/

namespace PAM

/-- Calendar date (year, month, day).  Ordering is lexicographic, as for
Python `datetime` values that share the same time of day. -/
structure Date where
  y : Nat
  m : Nat
  d : Nat
deriving DecidableEq

/-- Strict comparison of dates, mirroring Python `datetime` `<`. -/
def Date.lt (a b : Date) : Bool :=
  decide (a.y < b.y) || (decide (a.y = b.y) &&
    (decide (a.m < b.m) || (decide (a.m = b.m) && decide (a.d < b.d))))

/-- Non-strict comparison of dates, mirroring Python `datetime` `<=`. -/
def Date.le (a b : Date) : Bool := !(Date.lt b a)

/-- Numeric value of a decimal digit character. -/
def digitVal (c : Char) : Nat := c.toNat - '0'.toNat

/-- Month field of `strptime` with format `%m`: the regex
`1[0-2]|0[1-9]|[1-9]`, one or two digits denoting 1..12, applied at the head
of the character list; returns the value and the unconsumed rest. -/
def parseMonth : List Char → Option (Nat × List Char)
  | c1 :: c2 :: rest =>
    if c1 = '0' then
      if '1' ≤ c2 ∧ c2 ≤ '9' then some (digitVal c2, rest) else none
    else if c1 = '1' ∧ '0' ≤ c2 ∧ c2 ≤ '2' then some (10 + digitVal c2, rest)
    else if '1' ≤ c1 ∧ c1 ≤ '9' then some (digitVal c1, c2 :: rest)
    else none
  | [c1] => if '1' ≤ c1 ∧ c1 ≤ '9' then some (digitVal c1, []) else none
  | [] => none

/-- Day field of `strptime` with format `%d`: the regex
`3[01]|[12]\d|0[1-9]|[1-9]`, one or two digits denoting 1..31. -/
def parseDay : List Char → Option (Nat × List Char)
  | c1 :: c2 :: rest =>
    if c1 = '3' ∧ (c2 = '0' ∨ c2 = '1') then some (30 + digitVal c2, rest)
    else if (c1 = '1' ∨ c1 = '2') ∧ c2.isDigit then
      some (digitVal c1 * 10 + digitVal c2, rest)
    else if c1 = '0' ∧ '1' ≤ c2 ∧ c2 ≤ '9' then some (digitVal c2, rest)
    else if '1' ≤ c1 ∧ c1 ≤ '9' then some (digitVal c1, c2 :: rest)
    else none
  | [c1] => if '1' ≤ c1 ∧ c1 ≤ '9' then some (digitVal c1, []) else none
  | [] => none

/-- Number of days in a month, with the Gregorian leap-year rule, as enforced
by the `datetime` constructor. -/
def daysInMonth (y m : Nat) : Nat :=
  if m = 2 then (if y % 4 = 0 ∧ (y % 100 ≠ 0 ∨ y % 400 = 0) then 29 else 28)
  else if m = 4 ∨ m = 6 ∨ m = 9 ∨ m = 11 then 30
  else 31

/-- `datetime.strptime(s, "%Y-%m-%d")`: exactly four year digits, a literal
dash, the `%m` field, a dash, the `%d` field, nothing left over, and the
resulting triple must be a real calendar date (year at least 1, day within
the month).  Returns `none` where the Python raises `ValueError`. -/
def parseDate (s : String) : Option Date :=
  match s.data with
  | y1 :: y2 :: y3 :: y4 :: '-' :: rest =>
    if y1.isDigit ∧ y2.isDigit ∧ y3.isDigit ∧ y4.isDigit then
      match parseMonth rest with
      | some (m, '-' :: rest2) =>
        match parseDay rest2 with
        | some (d, []) =>
          let y := ((digitVal y1 * 10 + digitVal y2) * 10 + digitVal y3) * 10 + digitVal y4
          if 1 ≤ y ∧ d ≤ daysInMonth y m then some ⟨y, m, d⟩ else none
        | _ => none
      | _ => none
    else none
  | _ => none

/-- Modelled from the spec: the `Engineer` record of
`models/engineer.py`, a file that is not present under the sources (only its
importers are).  Per spec section 3 it holds a unique string identifier, a
name, and arbitrary extra attributes; the allocation core reads only the
identifier and the name. -/
structure Engineer where
  id : String
  name : String
deriving DecidableEq

/-- The `Project` record of `models/project.py`: identifier, name, plus
extension attributes the core never reads. -/
structure Project where
  id : String
  name : String
deriving DecidableEq

/-- The `Allocation` record of `models/allocation.py`. -/
structure Allocation where
  id : String
  engineer_id : String
  project_id : String
  allocation_percentage : Int
  start_date : Date
  end_date : Option Date
deriving DecidableEq

/-- The in-memory entity store held by `AllocationService`. -/
structure Store where
  engineers : List Engineer
  projects : List Project
  allocations : List Allocation
deriving DecidableEq

/-- The messages produced by the service: one constructor per distinct
formatted string in the source, carrying exactly the data interpolated
there. -/
inductive Msg where
  | engineerNotFound (engineer_id : String)
  | projectNotFound (project_id : String)
  | percentageOutOfRange
  | invalidStartDate (text : String)
  | invalidEndDate (text : String)
  | endNotAfterStart
  | overAllocated (engineerName : String) (currentTotal adding total : Int)
  | duplicateAllocation (engineerName projectName : String)
      (fromDate : Date) (toDate : Option Date)
  | allocationNotFound (allocation_id : String)
  | associatedNotFound
  | wouldBeOverAllocated (engineerName : String) (currentTotal adding total : Int)
  | duplicateAllocationUpdate (engineerName projectName : String)
      (fromDate : Date) (toDate : Option Date) (inAllocation : String)
  | successCreate (adding : Int) (engineerName projectName : String)
      (fromDate : Date) (toDate : Option Date)
  | successUpdate (adding : Int) (engineerName projectName : String)
      (fromDate : Date) (toDate : Option Date)
deriving DecidableEq

/-- `get_engineer_by_id_async`: first engineer with the given id. -/
def get_engineer_by_id (s : Store) (id : String) : Option Engineer :=
  s.engineers.find? (fun e => e.id == id)

/-- `get_project_by_id_async`: first project with the given id. -/
def get_project_by_id (s : Store) (id : String) : Option Project :=
  s.projects.find? (fun p => p.id == id)

/-- `get_allocation_by_id_async`: first allocation with the given id. -/
def get_allocation_by_id (s : Store) (id : String) : Option Allocation :=
  s.allocations.find? (fun a => a.id == id)

/-- `get_allocations_by_engineer_id_async`. -/
def get_allocations_by_engineer_id (s : Store) (engineer_id : String) : List Allocation :=
  s.allocations.filter (fun a => a.engineer_id == engineer_id)

/-- `_get_overlapping_allocations`: the overlap engine, with the source's
four-branch case analysis keyed first on the candidate end and then on the
existing allocation's end. -/
def get_overlapping_allocations : List Allocation → Date → Option Date → List Allocation
  | [], _, _ => []
  | alloc :: rest, new_start, new_end =>
    let keep : Bool :=
      match new_end, alloc.end_date with
      | some ne, some ee => Date.lt new_start ee && Date.lt alloc.start_date ne
      | none, some ee => Date.lt new_start ee
      | some ne, none => Date.lt alloc.start_date ne
      | none, none => true
    if keep then alloc :: get_overlapping_allocations rest new_start new_end
    else get_overlapping_allocations rest new_start new_end

/-- The four-case overlap table of spec section 4.1, on a candidate range
`(s1, e1)` and an existing range `(s2, e2)`, where `none` means
indefinite. -/
def rangesOverlap (s1 : Date) (e1 : Option Date) (s2 : Date) (e2 : Option Date) : Bool :=
  match e1, e2 with
  | some be1, some be2 => Date.lt s1 be2 && Date.lt s2 be1
  | none, some be2 => Date.lt s1 be2
  | some be1, none => Date.lt s2 be1
  | none, none => true

/-- Python's blank test `s.strip() == ""` (also true where `not s` is):
every character of the string is whitespace. -/
def isBlankStr (s : String) : Bool := s.data.all (fun c => c.isWhitespace)

/-- Start-date normalization shared by both paths: a missing or blank text
keeps the default (today for create, the stored value for update); otherwise
the text must parse as `%Y-%m-%d`. -/
def resolveDateOr (default : Date) (text : Option String) : Option Date :=
  match text with
  | none => some default
  | some t => if isBlankStr t then some default else parseDate t

/-- End-date normalization: a missing or blank text keeps the default
(indefinite for create, the stored value for update); otherwise the text
must parse. -/
def resolveEndOr (default : Option Date) (text : Option String) : Option (Option Date) :=
  match text with
  | none => some default
  | some t => if isBlankStr t then some default else (parseDate t).map some

/-- The `parsed_end_date <= parsed_start_date` rejection condition (only
checked when an end date is present). -/
def endNotAfter (ps : Date) (pe : Option Date) : Bool :=
  match pe with
  | some e => Date.le e ps
  | none => false

/-- `sum(a.allocation_percentage for a in l)`. -/
def sumPct (l : List Allocation) : Int :=
  (l.map (fun a => a.allocation_percentage)).sum

/-- The overlap set computed in the create path: the engineer's existing
allocations against the normalized candidate range. -/
def overlapping_for (s : Store) (engineer_id : String) (ps : Date) (pe : Option Date) :
    List Allocation :=
  get_overlapping_allocations (get_allocations_by_engineer_id s engineer_id) ps pe

/-- The update path's `existing_allocations`: the engineer's allocations with
the allocation being updated filtered out by id. -/
def existing_for_update (s : Store) (engineer_id allocation_id : String) : List Allocation :=
  (get_allocations_by_engineer_id s engineer_id).filter (fun a => !(a.id == allocation_id))

/-- The overlap set computed in the update path. -/
def overlapping_for_update (s : Store) (engineer_id allocation_id : String)
    (ps : Date) (pe : Option Date) : List Allocation :=
  get_overlapping_allocations (existing_for_update s engineer_id allocation_id) ps pe

/-- The update path's percentage guard: fails only when a percentage is
supplied and lies outside 1..100. -/
def pctOutOfRange : Option Int → Bool
  | some p => decide (p < 1 ∨ p > 100)
  | none => false

/-- In-place mutation of the object returned by `get_allocation_by_id_async`:
replaces the first allocation bearing the given id. -/
def setAllocation : List Allocation → String → Allocation → List Allocation
  | [], _, _ => []
  | a :: rest, id, na =>
    if a.id == id then na :: rest else a :: setAllocation rest id na

/-- `allocate_engineer_async`.  `uuidStr` stands for the `str(uuid.uuid4())`
value drawn in the commit step and `today` for `datetime.today()`; the
function returns the resulting store together with the
`(success, message, allocation)` tuple. -/
def allocate_engineer_async (s : Store) (uuidStr : String) (today : Date)
    (engineer_id project_id : String) (allocation_percentage : Int)
    (start_date end_date : Option String) : Store × (Bool × Msg × Option Allocation) :=
  match get_engineer_by_id s engineer_id with
  | none => (s, (false, Msg.engineerNotFound engineer_id, none))
  | some engineer =>
    match get_project_by_id s project_id with
    | none => (s, (false, Msg.projectNotFound project_id, none))
    | some project =>
      if allocation_percentage < 1 ∨ allocation_percentage > 100 then
        (s, (false, Msg.percentageOutOfRange, none))
      else
        match resolveDateOr today start_date with
        | none => (s, (false, Msg.invalidStartDate (start_date.getD ""), none))
        | some parsed_start_date =>
          match resolveEndOr none end_date with
          | none => (s, (false, Msg.invalidEndDate (end_date.getD ""), none))
          | some parsed_end_date =>
            if endNotAfter parsed_start_date parsed_end_date then
              (s, (false, Msg.endNotAfterStart, none))
            else
              if overlapping_for s engineer_id parsed_start_date parsed_end_date ≠ [] ∧
                  sumPct (overlapping_for s engineer_id parsed_start_date parsed_end_date) +
                    allocation_percentage > 100 then
                (s, (false,
                  Msg.overAllocated engineer.name
                    (sumPct (overlapping_for s engineer_id parsed_start_date parsed_end_date))
                    allocation_percentage
                    (sumPct (overlapping_for s engineer_id parsed_start_date parsed_end_date) +
                      allocation_percentage), none))
              else
                match (overlapping_for s engineer_id parsed_start_date parsed_end_date).find?
                    (fun a => a.project_id == project_id) with
                | some dup =>
                  (s, (false,
                    Msg.duplicateAllocation engineer.name project.name
                      dup.start_date dup.end_date, none))
                | none =>
                  ({ s with allocations := s.allocations ++
                      [{ id := "alloc-" ++ uuidStr.take 8
                         engineer_id := engineer_id
                         project_id := project_id
                         allocation_percentage := allocation_percentage
                         start_date := parsed_start_date
                         end_date := parsed_end_date }] },
                   (true,
                    Msg.successCreate allocation_percentage engineer.name project.name
                      parsed_start_date parsed_end_date,
                    some { id := "alloc-" ++ uuidStr.take 8
                           engineer_id := engineer_id
                           project_id := project_id
                           allocation_percentage := allocation_percentage
                           start_date := parsed_start_date
                           end_date := parsed_end_date }))

/-- `update_allocation_async`. -/
def update_allocation_async (s : Store) (allocation_id : String)
    (allocation_percentage : Option Int) (start_date end_date : Option String) :
    Store × (Bool × Msg × Option Allocation) :=
  match get_allocation_by_id s allocation_id with
  | none => (s, (false, Msg.allocationNotFound allocation_id, none))
  | some allocation =>
    match get_engineer_by_id s allocation.engineer_id,
        get_project_by_id s allocation.project_id with
    | some engineer, some project =>
      match resolveDateOr allocation.start_date start_date with
      | none => (s, (false, Msg.invalidStartDate (start_date.getD ""), none))
      | some parsed_start_date =>
        match resolveEndOr allocation.end_date end_date with
        | none => (s, (false, Msg.invalidEndDate (end_date.getD ""), none))
        | some parsed_end_date =>
          if endNotAfter parsed_start_date parsed_end_date then
            (s, (false, Msg.endNotAfterStart, none))
          else
            if pctOutOfRange allocation_percentage then
              (s, (false, Msg.percentageOutOfRange, none))
            else
              if overlapping_for_update s allocation.engineer_id allocation_id
                    parsed_start_date parsed_end_date ≠ [] ∧
                  sumPct (overlapping_for_update s allocation.engineer_id allocation_id
                    parsed_start_date parsed_end_date) +
                    allocation_percentage.getD allocation.allocation_percentage > 100 then
                (s, (false,
                  Msg.wouldBeOverAllocated engineer.name
                    (sumPct (overlapping_for_update s allocation.engineer_id allocation_id
                      parsed_start_date parsed_end_date))
                    (allocation_percentage.getD allocation.allocation_percentage)
                    (sumPct (overlapping_for_update s allocation.engineer_id allocation_id
                      parsed_start_date parsed_end_date) +
                      allocation_percentage.getD allocation.allocation_percentage), none))
              else
                match (overlapping_for_update s allocation.engineer_id allocation_id
                    parsed_start_date parsed_end_date).find?
                    (fun a => a.project_id == allocation.project_id) with
                | some dup =>
                  (s, (false,
                    Msg.duplicateAllocationUpdate engineer.name project.name
                      dup.start_date dup.end_date dup.id, none))
                | none =>
                  ({ s with
                     allocations :=
                       setAllocation s.allocations allocation_id
                         { allocation with
                           allocation_percentage :=
                             allocation_percentage.getD allocation.allocation_percentage
                           start_date := parsed_start_date
                           end_date := parsed_end_date } },
                   (true,
                    Msg.successUpdate
                      (allocation_percentage.getD allocation.allocation_percentage)
                      engineer.name project.name parsed_start_date parsed_end_date,
                    some { allocation with
                           allocation_percentage :=
                             allocation_percentage.getD allocation.allocation_percentage
                           start_date := parsed_start_date
                           end_date := parsed_end_date }))
    | _, _ => (s, (false, Msg.associatedNotFound, none))

/-- An external call into the mutating part of the service: either an
`AllocateEngineer` request (with the uuid draw and the current date made
explicit) or an `UpdateAllocation` request. -/
inductive Op where
  | allocate (uuidStr : String) (today : Date) (engineer_id project_id : String)
      (allocation_percentage : Int) (start_date end_date : Option String)
  | update (allocation_id : String) (allocation_percentage : Option Int)
      (start_date end_date : Option String)

/-- The store after one operation (rejected operations return the store
unchanged). -/
def applyOp (s : Store) : Op → Store
  | .allocate u t eid pid pct sd ed => (allocate_engineer_async s u t eid pid pct sd ed).1
  | .update aid pct sd ed => (update_allocation_async s aid pct sd ed).1

/-- The store after a sequence of operations. -/
def execOps (s : Store) : List Op → Store
  | [] => s
  | op :: rest => execOps (applyOp s op) rest

/-- The uuid drawn for an allocate operation yields an id not already present
in the store — the behaviour of `uuid.uuid4()` absent a collision of the
8-character prefix. -/
def freshOp (s : Store) : Op → Bool
  | .allocate u _ _ _ _ _ _ =>
    decide (("alloc-" ++ u.take 8) ∉ s.allocations.map (fun a => a.id))
  | .update _ _ _ _ => true

/-- Every uuid draw along the run is fresh for the store it executes in. -/
def freshRun (s : Store) : List Op → Bool
  | [] => true
  | op :: rest => freshOp s op && freshRun (applyOp s op) rest

/-- Capacity compatibility of one pair of allocations: if they belong to the
same engineer and their ranges overlap, their percentages sum to at most
100. -/
def pairCapOk (a b : Allocation) : Prop :=
  a.engineer_id = b.engineer_id →
  rangesOverlap a.start_date a.end_date b.start_date b.end_date = true →
  a.allocation_percentage + b.allocation_percentage ≤ 100

/-- Duplicate-assignment compatibility of one pair: allocations of the same
engineer to the same project never overlap. -/
def pairDupOk (a b : Allocation) : Prop :=
  a.engineer_id = b.engineer_id → a.project_id = b.project_id →
  rangesOverlap a.start_date a.end_date b.start_date b.end_date = false

/-- The store invariant maintained by the service: percentages in range,
allocation ids distinct, and both pairwise compatibility properties. -/
def StoreInv (s : Store) : Prop :=
  (∀ a ∈ s.allocations, 1 ≤ a.allocation_percentage ∧ a.allocation_percentage ≤ 100) ∧
  (s.allocations.map (fun a => a.id)).Nodup ∧
  s.allocations.Pairwise pairCapOk ∧
  s.allocations.Pairwise pairDupOk

lemma Date.lt_self (a : Date) : Date.lt a a = false := by
  simp [Date.lt]

lemma rangesOverlap_symm (s1 : Date) (e1 : Option Date) (s2 : Date) (e2 : Option Date) :
    rangesOverlap s1 e1 s2 e2 = rangesOverlap s2 e2 s1 e1 := by
  cases e1 <;> cases e2 <;> simp [rangesOverlap, Bool.and_comm]

lemma get_overlapping_eq_filter (l : List Allocation) (ns : Date) (ne : Option Date) :
    get_overlapping_allocations l ns ne =
      l.filter (fun a => rangesOverlap ns ne a.start_date a.end_date) := by
  induction l with
  | nil => rfl
  | cons a rest ih =>
    simp only [get_overlapping_allocations, List.filter_cons]
    cases ne <;> cases hae : a.end_date <;>
      simp [rangesOverlap, hae, ih]

lemma mem_overlapping_iff (l : List Allocation) (ns : Date) (ne : Option Date)
    (a : Allocation) :
    a ∈ get_overlapping_allocations l ns ne ↔
      a ∈ l ∧ rangesOverlap ns ne a.start_date a.end_date = true := by
  rw [get_overlapping_eq_filter, List.mem_filter]

lemma mem_setAllocation {l : List Allocation} {id : String} {na a : Allocation}
    (h : a ∈ setAllocation l id na) : a = na ∨ a ∈ l := by
  induction l with
  | nil => simp [setAllocation] at h
  | cons b rest ih =>
    simp only [setAllocation] at h
    by_cases hb : (b.id == id) = true
    · rw [if_pos hb] at h
      rcases List.mem_cons.mp h with h | h
      · exact Or.inl h
      · exact Or.inr (List.mem_cons_of_mem _ h)
    · rw [if_neg hb] at h
      rcases List.mem_cons.mp h with h | h
      · exact Or.inr (h ▸ List.mem_cons_self _ _)
      · rcases ih h with h | h
        · exact Or.inl h
        · exact Or.inr (List.mem_cons_of_mem _ h)

lemma setAllocation_map_id {l : List Allocation} {id : String} {na : Allocation}
    (h : na.id = id) : (setAllocation l id na).map (fun a => a.id) =
      l.map (fun a => a.id) := by
  induction l with
  | nil => rfl
  | cons b rest ih =>
    simp only [setAllocation]
    by_cases hb : (b.id == id) = true
    · rw [if_pos hb]
      simp only [List.map_cons]
      rw [h, (beq_iff_eq.mp hb)]
    · rw [if_neg hb]
      simp only [List.map_cons, ih]

lemma setAllocation_pairwise {R : Allocation → Allocation → Prop}
    {l : List Allocation} {id : String} {na : Allocation}
    (hnd : (l.map (fun a => a.id)).Nodup)
    (hl : l.Pairwise R)
    (hna : ∀ b ∈ l, b.id ≠ id → R na b ∧ R b na) :
    (setAllocation l id na).Pairwise R := by
  induction l with
  | nil => exact List.Pairwise.nil
  | cons b rest ih =>
    simp only [List.map_cons, List.nodup_cons] at hnd
    rcases List.pairwise_cons.mp hl with ⟨hb, hrest⟩
    simp only [setAllocation]
    by_cases hid : (b.id == id) = true
    · rw [if_pos hid]
      refine List.pairwise_cons.mpr ⟨?_, hrest⟩
      intro c hc
      have hcid : c.id ≠ id := by
        intro hcid
        exact hnd.1 (by
          rw [beq_iff_eq.mp hid, ← hcid]
          exact List.mem_map_of_mem _ hc)
      exact (hna c (List.mem_cons_of_mem _ hc) hcid).1
    · rw [if_neg hid]
      refine List.pairwise_cons.mpr ⟨?_, ?_⟩
      · intro c hc
        rcases mem_setAllocation hc with rfl | hc
        · exact (hna b (List.mem_cons_self _ _) (by
            intro hbid
            exact hid (beq_iff_eq.mpr hbid))).2
        · exact hb c hc
      · exact ih hnd.2 hrest (fun c hc hcid => hna c (List.mem_cons_of_mem _ hc) hcid)

lemma mem_of_mem_setAllocation_ne {l : List Allocation} {id : String} {na a : Allocation}
    (h : a ∈ l) (hne : a.id ≠ id) : a ∈ setAllocation l id na := by
  induction l with
  | nil => simp at h
  | cons b rest ih =>
    simp only [setAllocation]
    rcases List.mem_cons.mp h with rfl | h
    · rw [if_neg (by simpa using hne)]
      exact List.mem_cons_self _ _
    · by_cases hb : (b.id == id) = true
      · rw [if_pos hb]
        exact List.mem_cons_of_mem _ h
      · rw [if_neg hb]
        exact List.mem_cons_of_mem _ (ih h)

lemma setAllocation_mem_self {l : List Allocation} {id : String} {na : Allocation}
    (h : ∃ x ∈ l, x.id = id) : na ∈ setAllocation l id na := by
  induction l with
  | nil => simp at h
  | cons b rest ih =>
    simp only [setAllocation]
    by_cases hb : (b.id == id) = true
    · rw [if_pos hb]
      exact List.mem_cons_self _ _
    · rw [if_neg hb]
      rcases h with ⟨x, hx, hxid⟩
      rcases List.mem_cons.mp hx with rfl | hx
      · exact absurd (beq_iff_eq.mpr hxid) hb
      · exact List.mem_cons_of_mem _ (ih ⟨x, hx, hxid⟩)

lemma pct_le_sumPct {l : List Allocation} {a : Allocation}
    (ha : a ∈ l) (hpos : ∀ x ∈ l, 0 ≤ x.allocation_percentage) :
    a.allocation_percentage ≤ sumPct l := by
  unfold sumPct
  exact List.single_le_sum (by
    intro x hx
    rcases List.mem_map.mp hx with ⟨b, hb, rfl⟩
    exact hpos b hb) _ (List.mem_map_of_mem _ ha)

lemma allocate_cases (s : Store) (u : String) (today : Date) (eid pid : String)
    (pct : Int) (sd ed : Option String) {r : Store × (Bool × Msg × Option Allocation)}
    (h : allocate_engineer_async s u today eid pid pct sd ed = r) :
    (r.1 = s ∧ r.2.1 = false ∧ r.2.2.2 = none) ∨
    (∃ e p ps pe,
      get_engineer_by_id s eid = some e ∧
      get_project_by_id s pid = some p ∧
      1 ≤ pct ∧ pct ≤ 100 ∧
      resolveDateOr today sd = some ps ∧
      resolveEndOr none ed = some pe ∧
      endNotAfter ps pe = false ∧
      (overlapping_for s eid ps pe = [] ∨
        sumPct (overlapping_for s eid ps pe) + pct ≤ 100) ∧
      (overlapping_for s eid ps pe).find? (fun a => a.project_id == pid) = none ∧
      r = ({ s with allocations := s.allocations ++
              [{ id := "alloc-" ++ u.take 8, engineer_id := eid, project_id := pid,
                 allocation_percentage := pct, start_date := ps, end_date := pe }] },
           (true, Msg.successCreate pct e.name p.name ps pe,
            some { id := "alloc-" ++ u.take 8, engineer_id := eid, project_id := pid,
                   allocation_percentage := pct, start_date := ps, end_date := pe }))) := by
  unfold allocate_engineer_async at h
  repeat' split at h
  all_goals subst h
  all_goals try exact Or.inl ⟨rfl, rfl, rfl⟩
  rename_i x4 engineer hE x3 project hP hpct x2 ps hS x1 pe hEnd hOrd hCap x0 hDup
  refine Or.inr ⟨engineer, project, ps, pe, hE, hP, by omega, by omega, hS, hEnd,
    by simpa using hOrd, ?_, hDup, rfl⟩
  rcases not_and_or.mp hCap with h1 | h1
  · exact Or.inl (not_not.mp h1)
  · exact Or.inr (by omega)

lemma update_cases (s : Store) (aid : String) (pct : Option Int)
    (sd ed : Option String) {r : Store × (Bool × Msg × Option Allocation)}
    (h : update_allocation_async s aid pct sd ed = r) :
    (r.1 = s ∧ r.2.1 = false ∧ r.2.2.2 = none) ∨
    (∃ allocation engineer project ps pe,
      get_allocation_by_id s aid = some allocation ∧
      get_engineer_by_id s allocation.engineer_id = some engineer ∧
      get_project_by_id s allocation.project_id = some project ∧
      resolveDateOr allocation.start_date sd = some ps ∧
      resolveEndOr allocation.end_date ed = some pe ∧
      endNotAfter ps pe = false ∧
      pctOutOfRange pct = false ∧
      (overlapping_for_update s allocation.engineer_id aid ps pe = [] ∨
        sumPct (overlapping_for_update s allocation.engineer_id aid ps pe) +
          pct.getD allocation.allocation_percentage ≤ 100) ∧
      (overlapping_for_update s allocation.engineer_id aid ps pe).find?
          (fun a => a.project_id == allocation.project_id) = none ∧
      r = ({ s with
             allocations := setAllocation s.allocations aid
               { allocation with
                 allocation_percentage := pct.getD allocation.allocation_percentage
                 start_date := ps
                 end_date := pe } },
           (true, Msg.successUpdate (pct.getD allocation.allocation_percentage)
              engineer.name project.name ps pe,
            some { allocation with
                   allocation_percentage := pct.getD allocation.allocation_percentage
                   start_date := ps
                   end_date := pe }))) := by
  unfold update_allocation_async at h
  repeat' split at h
  all_goals subst h
  all_goals try exact Or.inl ⟨rfl, rfl, rfl⟩
  rename_i x5 allocation hA x4 x3 engineer project hE hP x2 ps hS x1 pe hEnd hOrd hpct hCap x0 hDup
  refine Or.inr ⟨allocation, engineer, project, ps, pe, hA, hE, hP, hS, hEnd,
    by simpa using hOrd, by simpa using hpct, ?_, hDup, rfl⟩
  rcases not_and_or.mp hCap with h1 | h1
  · exact Or.inl (not_not.mp h1)
  · exact Or.inr (by omega)

lemma mem_overlapping_for {s : Store} {eid : String} {ps : Date} {pe : Option Date}
    {a : Allocation} (ha : a ∈ s.allocations) (he : a.engineer_id = eid)
    (ho : rangesOverlap a.start_date a.end_date ps pe = true) :
    a ∈ overlapping_for s eid ps pe := by
  unfold overlapping_for
  rw [mem_overlapping_iff]
  refine ⟨List.mem_filter.mpr ⟨ha, by simp [get_allocations_by_engineer_id, he]⟩, ?_⟩
  rw [rangesOverlap_symm]
  exact ho

lemma overlapping_for_subset {s : Store} {eid : String} {ps : Date} {pe : Option Date}
    {x : Allocation} (hx : x ∈ overlapping_for s eid ps pe) : x ∈ s.allocations := by
  unfold overlapping_for at hx
  rw [mem_overlapping_iff] at hx
  exact (List.mem_filter.mp hx.1).1

lemma mem_overlapping_for_update {s : Store} {eid aid : String} {ps : Date}
    {pe : Option Date} {a : Allocation} (ha : a ∈ s.allocations)
    (he : a.engineer_id = eid) (hid : a.id ≠ aid)
    (ho : rangesOverlap a.start_date a.end_date ps pe = true) :
    a ∈ overlapping_for_update s eid aid ps pe := by
  unfold overlapping_for_update existing_for_update
  rw [mem_overlapping_iff]
  refine ⟨List.mem_filter.mpr ⟨List.mem_filter.mpr
    ⟨ha, by simp [get_allocations_by_engineer_id, he]⟩, by simp [hid]⟩, ?_⟩
  rw [rangesOverlap_symm]
  exact ho

lemma overlapping_for_update_subset {s : Store} {eid aid : String} {ps : Date}
    {pe : Option Date} {x : Allocation}
    (hx : x ∈ overlapping_for_update s eid aid ps pe) : x ∈ s.allocations := by
  unfold overlapping_for_update existing_for_update at hx
  rw [mem_overlapping_iff] at hx
  exact (List.mem_filter.mp (List.mem_filter.mp hx.1).1).1

lemma nodup_append_fresh {l : List Allocation} {na : Allocation}
    (hnd : (l.map (fun a => a.id)).Nodup)
    (hf : na.id ∉ l.map (fun a => a.id)) :
    ((l ++ [na]).map (fun a => a.id)).Nodup := by
  rw [List.map_append, List.nodup_append]
  refine ⟨hnd, List.nodup_singleton _, ?_⟩
  intro x hx hx2
  rcases List.mem_singleton.mp hx2 with rfl
  exact hf hx

lemma pairwise_append_one {R : Allocation → Allocation → Prop}
    {l : List Allocation} {na : Allocation}
    (hl : l.Pairwise R) (h : ∀ a ∈ l, R a na) : (l ++ [na]).Pairwise R := by
  rw [List.pairwise_append]
  refine ⟨hl, List.pairwise_singleton _ _, ?_⟩
  intro a ha b hb
  rcases List.mem_singleton.mp hb with rfl
  exact h a ha

lemma nodup_setAllocation {l : List Allocation} {aid : String} {na : Allocation}
    (hnd : (l.map (fun a => a.id)).Nodup) (h : na.id = aid) :
    ((setAllocation l aid na).map (fun a => a.id)).Nodup := by
  rw [setAllocation_map_id h]
  exact hnd

lemma allocate_preserves (s : Store) (u : String) (today : Date) (eid pid : String)
    (pct : Int) (sd ed : Option String) (hInv : StoreInv s)
    (hFresh : ("alloc-" ++ u.take 8) ∉ s.allocations.map (fun a => a.id)) :
    StoreInv (allocate_engineer_async s u today eid pid pct sd ed).1 := by
  rcases allocate_cases s u today eid pid pct sd ed rfl with h | h
  · rw [h.1]
    exact hInv
  · obtain ⟨e, p, ps, pe, hE, hP, h1, h2, hS, hEnd, hOrd, hCap, hDup, hr⟩ := h
    have hr1 : (allocate_engineer_async s u today eid pid pct sd ed).1 =
        { s with allocations := s.allocations ++
          [{ id := "alloc-" ++ u.take 8, engineer_id := eid, project_id := pid,
             allocation_percentage := pct, start_date := ps, end_date := pe }] } := by
      rw [hr]
    rw [hr1]
    refine ⟨?_, ?_, ?_, ?_⟩
    · intro x hx
      rcases List.mem_append.mp hx with hx | hx
      · exact hInv.1 x hx
      · rcases List.mem_singleton.mp hx with rfl
        exact ⟨h1, h2⟩
    · exact nodup_append_fresh hInv.2.1 hFresh
    · refine pairwise_append_one hInv.2.2.1 ?_
      intro a ha
      intro hEng hOv
      have hmem : a ∈ overlapping_for s eid ps pe :=
        mem_overlapping_for ha hEng hOv
      rcases hCap with hemp | hle
      · rw [hemp] at hmem
        simp at hmem
      · have hpos : ∀ x ∈ overlapping_for s eid ps pe, 0 ≤ x.allocation_percentage := by
          intro x hx
          have := hInv.1 x (overlapping_for_subset hx)
          omega
        have hble := pct_le_sumPct hmem hpos
        show a.allocation_percentage + pct ≤ 100
        omega
    · refine pairwise_append_one hInv.2.2.2 ?_
      intro a ha
      intro hEng hProj
      rw [Bool.eq_false_iff]
      intro hOv
      have hmem : a ∈ overlapping_for s eid ps pe :=
        mem_overlapping_for ha hEng hOv
      have hnone := List.find?_eq_none.mp hDup a hmem
      exact hnone (beq_iff_eq.mpr hProj)

lemma update_preserves (s : Store) (aid : String) (pct : Option Int)
    (sd ed : Option String) (hInv : StoreInv s) :
    StoreInv (update_allocation_async s aid pct sd ed).1 := by
  rcases update_cases s aid pct sd ed rfl with h | h
  · rw [h.1]
    exact hInv
  · obtain ⟨allocation, engineer, project, ps, pe, hA, hE, hP, hS, hEnd, hOrd,
      hpctOk, hCap, hDup, hr⟩ := h
    have hr1 : (update_allocation_async s aid pct sd ed).1 =
        { s with
          allocations :=
            setAllocation s.allocations aid
              { allocation with
                allocation_percentage := pct.getD allocation.allocation_percentage
                start_date := ps
                end_date := pe } } := by
      rw [hr]
    rw [hr1]
    have hA2 : s.allocations.find? (fun a => a.id == aid) = some allocation := hA
    have hAmem : allocation ∈ s.allocations := List.mem_of_find?_eq_some hA2
    have hAid : allocation.id = aid := by
      have h0 := List.find?_some hA2
      simpa using h0
    have hnap : 1 ≤ pct.getD allocation.allocation_percentage ∧
        pct.getD allocation.allocation_percentage ≤ 100 := by
      cases pct with
      | none => simpa using hInv.1 allocation hAmem
      | some q =>
        simp only [pctOutOfRange, decide_eq_false_iff_not] at hpctOk
        simp only [Option.getD_some]
        omega
    have hsum : ∀ b, b ∈ overlapping_for_update s allocation.engineer_id aid ps pe →
        b.allocation_percentage + pct.getD allocation.allocation_percentage ≤ 100 := by
      intro b hbmem
      rcases hCap with hemp | hle
      · rw [hemp] at hbmem
        simp at hbmem
      · have hpos : ∀ x ∈ overlapping_for_update s allocation.engineer_id aid ps pe,
            0 ≤ x.allocation_percentage := by
          intro x hx
          have := hInv.1 x (overlapping_for_update_subset hx)
          omega
        have := pct_le_sumPct hbmem hpos
        omega
    refine ⟨?_, ?_, ?_, ?_⟩
    · intro x hx
      rcases mem_setAllocation hx with rfl | hx
      · exact hnap
      · exact hInv.1 x hx
    · exact nodup_setAllocation hInv.2.1 hAid
    · refine setAllocation_pairwise hInv.2.1 hInv.2.2.1 ?_
      intro b hb hbid
      constructor
      · intro hEng hOv
        have hbmem : b ∈ overlapping_for_update s allocation.engineer_id aid ps pe := by
          refine mem_overlapping_for_update hb ?_ hbid ?_
          · exact (show allocation.engineer_id = b.engineer_id from hEng).symm
          · rw [rangesOverlap_symm] at hOv
            exact hOv
        have := hsum b hbmem
        show pct.getD allocation.allocation_percentage + b.allocation_percentage ≤ 100
        omega
      · intro hEng hOv
        have hbmem : b ∈ overlapping_for_update s allocation.engineer_id aid ps pe := by
          refine mem_overlapping_for_update hb ?_ hbid ?_
          · exact hEng
          · exact hOv
        have := hsum b hbmem
        show b.allocation_percentage + pct.getD allocation.allocation_percentage ≤ 100
        omega
    · refine setAllocation_pairwise hInv.2.1 hInv.2.2.2 ?_
      intro b hb hbid
      constructor
      · intro hEng hProj
        rw [Bool.eq_false_iff]
        intro hOv
        have hbmem : b ∈ overlapping_for_update s allocation.engineer_id aid ps pe := by
          refine mem_overlapping_for_update hb ?_ hbid ?_
          · exact (show allocation.engineer_id = b.engineer_id from hEng).symm
          · rw [rangesOverlap_symm] at hOv
            exact hOv
        have hnone := List.find?_eq_none.mp hDup b hbmem
        exact hnone (beq_iff_eq.mpr
          (show b.project_id = allocation.project_id from
            (show allocation.project_id = b.project_id from hProj).symm))
      · intro hEng hProj
        rw [Bool.eq_false_iff]
        intro hOv
        have hbmem : b ∈ overlapping_for_update s allocation.engineer_id aid ps pe := by
          refine mem_overlapping_for_update hb ?_ hbid ?_
          · exact hEng
          · exact hOv
        have hnone := List.find?_eq_none.mp hDup b hbmem
        exact hnone (beq_iff_eq.mpr hProj)

lemma applyOp_preserves (s : Store) (op : Op) (hInv : StoreInv s)
    (hF : freshOp s op = true) : StoreInv (applyOp s op) := by
  cases op with
  | allocate u t eid pid pct sd ed =>
    simp only [freshOp, decide_eq_true_eq] at hF
    exact allocate_preserves s u t eid pid pct sd ed hInv hF
  | update aid pct sd ed =>
    exact update_preserves s aid pct sd ed hInv

lemma execOps_preserves (ops : List Op) (s : Store) (hInv : StoreInv s)
    (hF : freshRun s ops = true) : StoreInv (execOps s ops) := by
  induction ops generalizing s with
  | nil => exact hInv
  | cons op rest ih =>
    simp only [freshRun, Bool.and_eq_true] at hF
    exact ih (applyOp s op) (applyOp_preserves s op hInv hF.1) hF.2

/-- C2: the overlap engine returns exactly those existing allocations, in
input order (a stable filter), whose range overlaps the candidate range under
the strict four-case table, and two ranges where one range's end equals the
other's start are never reported as overlapping, in either orientation. -/
theorem c2_overlap_engine_matches_table :
    (∀ (l : List Allocation) (ns : Date) (ne : Option Date),
      get_overlapping_allocations l ns ne =
        l.filter (fun a => rangesOverlap ns ne a.start_date a.end_date)) ∧
    (∀ (s1 x : Date) (e2 : Option Date), rangesOverlap s1 (some x) x e2 = false) ∧
    (∀ (x s2 : Date) (e1 : Option Date), rangesOverlap x e1 s2 (some x) = false) := by
  refine ⟨get_overlapping_eq_filter, ?_, ?_⟩
  · intro s1 x e2
    cases e2 <;> simp [rangesOverlap, Date.lt_self]
  · intro x s2 e1
    cases e1 <;> simp [rangesOverlap, Date.lt_self]

/-- C1: starting from a store with no allocations, after every sequence of
allocate/update operations (whose generated identifiers are fresh, as
`uuid.uuid4()` provides), every two distinct allocations of the same engineer
whose date ranges overlap per the four-case table have percentages summing to
at most 100.  Rejected operations leave the store unchanged, so the invariant
holds after each accepted operation of the sequence. -/
theorem c1_capacity_invariant (engineers : List Engineer) (projects : List Project)
    (ops : List Op)
    (hFresh : freshRun ⟨engineers, projects, []⟩ ops = true) :
    (execOps ⟨engineers, projects, []⟩ ops).allocations.Pairwise
      (fun a b => a.engineer_id = b.engineer_id →
        rangesOverlap a.start_date a.end_date b.start_date b.end_date = true →
        a.allocation_percentage + b.allocation_percentage ≤ 100) := by
  have h0 : StoreInv ⟨engineers, projects, []⟩ :=
    ⟨by simp, by simp, List.Pairwise.nil, List.Pairwise.nil⟩
  exact (execOps_preserves ops _ h0 hFresh).2.2.1

/-- Witness for C1: a concrete two-operation run (60% and 40% on overlapping
indefinite ranges) satisfies the freshness hypothesis and the invariant. -/
theorem c1_capacity_invariant_witness :
    freshRun ⟨[⟨"e1", "Alice"⟩], [⟨"p1", "Apollo"⟩, ⟨"p2", "Borealis"⟩], []⟩
      [Op.allocate "aaaa1111-0000" ⟨2024, 1, 1⟩ "e1" "p1" 60 none none,
       Op.allocate "bbbb2222-0000" ⟨2024, 1, 1⟩ "e1" "p2" 40 none none] = true ∧
    (execOps ⟨[⟨"e1", "Alice"⟩], [⟨"p1", "Apollo"⟩, ⟨"p2", "Borealis"⟩], []⟩
      [Op.allocate "aaaa1111-0000" ⟨2024, 1, 1⟩ "e1" "p1" 60 none none,
       Op.allocate "bbbb2222-0000" ⟨2024, 1, 1⟩ "e1" "p2" 40 none none]).allocations.Pairwise
      (fun a b => a.engineer_id = b.engineer_id →
        rangesOverlap a.start_date a.end_date b.start_date b.end_date = true →
        a.allocation_percentage + b.allocation_percentage ≤ 100) :=
  ⟨by decide, c1_capacity_invariant _ _ _ (by decide)⟩

/-- C3: in the create path, once the existence, percentage-range and date
checks have passed, the result is the capacity rejection (with the current
and would-be totals as computed over the overlap set) exactly when the
overlap set is non-empty and its percentage sum plus the new percentage
exceeds 100; in particular a would-be total of exactly 100 passes the
capacity check, and an empty overlap set never produces a capacity
rejection. -/
theorem c3_create_capacity_check (s : Store) (u : String) (today : Date)
    (eid pid : String) (pct : Int) (sd ed : Option String) (e : Engineer)
    (p : Project) (ps : Date) (pe : Option Date)
    (hE : get_engineer_by_id s eid = some e)
    (hP : get_project_by_id s pid = some p)
    (h1 : 1 ≤ pct) (h2 : pct ≤ 100)
    (hS : resolveDateOr today sd = some ps)
    (hEnd : resolveEndOr none ed = some pe)
    (hOrd : endNotAfter ps pe = false) :
    (allocate_engineer_async s u today eid pid pct sd ed).2 =
      (false, Msg.overAllocated e.name (sumPct (overlapping_for s eid ps pe)) pct
        (sumPct (overlapping_for s eid ps pe) + pct), none) ↔
    (overlapping_for s eid ps pe ≠ [] ∧
      sumPct (overlapping_for s eid ps pe) + pct > 100) := by
  simp only [allocate_engineer_async, hE, hP, hS, hEnd, hOrd]
  rw [if_neg (show ¬(pct < 1 ∨ pct > 100) by omega)]
  by_cases hcap : overlapping_for s eid ps pe ≠ [] ∧
      sumPct (overlapping_for s eid ps pe) + pct > 100
  · rw [if_pos hcap]
    exact iff_of_true rfl hcap
  · rw [if_neg hcap]
    rcases hdup : (overlapping_for s eid ps pe).find? (fun a => a.project_id == pid)
      with _ | d
    · simp only [hdup]
      exact iff_of_false (by simp) hcap
    · simp only [hdup]
      exact iff_of_false (by simp) hcap

/-- A concrete store shared by the witnesses: one engineer, two projects,
one 60% indefinite allocation of the engineer to the first project. -/
def wStore : Store :=
  ⟨[⟨"e1", "Alice"⟩], [⟨"p1", "Apollo"⟩, ⟨"p2", "Borealis"⟩],
   [⟨"alloc-aaaa1111", "e1", "p1", 60, ⟨2024, 1, 1⟩, none⟩]⟩

/-- Witness for C3: against `wStore`, a second overlapping 50% request is a
capacity rejection (both sides of the equivalence hold); all hypotheses are
discharged by evaluation. -/
theorem c3_create_capacity_check_witness :
    (allocate_engineer_async wStore "bbbb2222-0000" ⟨2024, 1, 2⟩ "e1" "p2" 50
        none none).2 =
      (false, Msg.overAllocated "Alice"
        (sumPct (overlapping_for wStore "e1" ⟨2024, 1, 2⟩ none)) 50
        (sumPct (overlapping_for wStore "e1" ⟨2024, 1, 2⟩ none) + 50), none) ↔
    (overlapping_for wStore "e1" ⟨2024, 1, 2⟩ none ≠ [] ∧
      sumPct (overlapping_for wStore "e1" ⟨2024, 1, 2⟩ none) + 50 > 100) :=
  c3_create_capacity_check wStore "bbbb2222-0000" ⟨2024, 1, 2⟩ "e1" "p2" 50
    none none ⟨"e1", "Alice"⟩ ⟨"p2", "Borealis"⟩ ⟨2024, 1, 2⟩ none
    (by decide) (by decide) (by decide) (by decide) (by decide) (by decide) (by decide)

/-- C5: the create path applies its checks in the fixed order
engineer-exists, project-exists, percentage-range, start-date parse,
end-date parse, end-after-start, capacity, duplicate-project; each conjunct
states that when the earlier checks pass and a given check fails, that
check's rejection is returned.  The capacity conjunct assumes nothing about
the duplicate-project condition, so when both the capacity-exceeded and the
duplicate-project conditions hold the result is the capacity rejection. -/
theorem c5_create_rejection_order :
    (∀ (s : Store) (u : String) (today : Date) (eid pid : String) (pct : Int)
        (sd ed : Option String),
      get_engineer_by_id s eid = none →
      (allocate_engineer_async s u today eid pid pct sd ed).2 =
        (false, Msg.engineerNotFound eid, none)) ∧
    (∀ (s : Store) (u : String) (today : Date) (eid pid : String) (pct : Int)
        (sd ed : Option String) (e : Engineer),
      get_engineer_by_id s eid = some e →
      get_project_by_id s pid = none →
      (allocate_engineer_async s u today eid pid pct sd ed).2 =
        (false, Msg.projectNotFound pid, none)) ∧
    (∀ (s : Store) (u : String) (today : Date) (eid pid : String) (pct : Int)
        (sd ed : Option String) (e : Engineer) (p : Project),
      get_engineer_by_id s eid = some e →
      get_project_by_id s pid = some p →
      (pct < 1 ∨ pct > 100) →
      (allocate_engineer_async s u today eid pid pct sd ed).2 =
        (false, Msg.percentageOutOfRange, none)) ∧
    (∀ (s : Store) (u : String) (today : Date) (eid pid : String) (pct : Int)
        (sd ed : Option String) (e : Engineer) (p : Project),
      get_engineer_by_id s eid = some e →
      get_project_by_id s pid = some p →
      ¬(pct < 1 ∨ pct > 100) →
      resolveDateOr today sd = none →
      (allocate_engineer_async s u today eid pid pct sd ed).2 =
        (false, Msg.invalidStartDate (sd.getD ""), none)) ∧
    (∀ (s : Store) (u : String) (today : Date) (eid pid : String) (pct : Int)
        (sd ed : Option String) (e : Engineer) (p : Project) (ps : Date),
      get_engineer_by_id s eid = some e →
      get_project_by_id s pid = some p →
      ¬(pct < 1 ∨ pct > 100) →
      resolveDateOr today sd = some ps →
      resolveEndOr none ed = none →
      (allocate_engineer_async s u today eid pid pct sd ed).2 =
        (false, Msg.invalidEndDate (ed.getD ""), none)) ∧
    (∀ (s : Store) (u : String) (today : Date) (eid pid : String) (pct : Int)
        (sd ed : Option String) (e : Engineer) (p : Project) (ps : Date)
        (pe : Option Date),
      get_engineer_by_id s eid = some e →
      get_project_by_id s pid = some p →
      ¬(pct < 1 ∨ pct > 100) →
      resolveDateOr today sd = some ps →
      resolveEndOr none ed = some pe →
      endNotAfter ps pe = true →
      (allocate_engineer_async s u today eid pid pct sd ed).2 =
        (false, Msg.endNotAfterStart, none)) ∧
    (∀ (s : Store) (u : String) (today : Date) (eid pid : String) (pct : Int)
        (sd ed : Option String) (e : Engineer) (p : Project) (ps : Date)
        (pe : Option Date),
      get_engineer_by_id s eid = some e →
      get_project_by_id s pid = some p →
      ¬(pct < 1 ∨ pct > 100) →
      resolveDateOr today sd = some ps →
      resolveEndOr none ed = some pe →
      endNotAfter ps pe = false →
      overlapping_for s eid ps pe ≠ [] →
      sumPct (overlapping_for s eid ps pe) + pct > 100 →
      (allocate_engineer_async s u today eid pid pct sd ed).2 =
        (false, Msg.overAllocated e.name (sumPct (overlapping_for s eid ps pe)) pct
          (sumPct (overlapping_for s eid ps pe) + pct), none)) := by
  refine ⟨?_, ?_, ?_, ?_, ?_, ?_, ?_⟩
  · intro s u today eid pid pct sd ed hE
    simp only [allocate_engineer_async, hE]
  · intro s u today eid pid pct sd ed e hE hP
    simp only [allocate_engineer_async, hE, hP]
  · intro s u today eid pid pct sd ed e p hE hP h3
    simp only [allocate_engineer_async, hE, hP]
    rw [if_pos h3]
  · intro s u today eid pid pct sd ed e p hE hP h3 hS
    simp only [allocate_engineer_async, hE, hP, hS]
    rw [if_neg h3]
  · intro s u today eid pid pct sd ed e p ps hE hP h3 hS hEnd
    simp only [allocate_engineer_async, hE, hP, hS, hEnd]
    rw [if_neg h3]
  · intro s u today eid pid pct sd ed e p ps pe hE hP h3 hS hEnd hOrd
    simp only [allocate_engineer_async, hE, hP, hS, hEnd, hOrd]
    rw [if_neg h3, if_pos trivial]
  · intro s u today eid pid pct sd ed e p ps pe hE hP h3 hS hEnd hOrd hne hgt
    simp only [allocate_engineer_async, hE, hP, hS, hEnd, hOrd]
    rw [if_neg h3, if_neg (by simp), if_pos (And.intro hne hgt)]

/-- Witness for C5: against `wStore`, a request with percentage 150 and a
malformed start date is rejected for the percentage (dates come later in the
order), and a request for the already-assigned project at 50% — where both
the capacity-exceeded and duplicate-project conditions hold — is rejected
for capacity. -/
theorem c5_create_rejection_order_witness :
    (allocate_engineer_async wStore "cccc3333-0000" ⟨2024, 1, 2⟩ "e1" "p1" 150
        (some "2024-13-40") none).2 =
      (false, Msg.percentageOutOfRange, none) ∧
    (allocate_engineer_async wStore "cccc3333-0000" ⟨2024, 1, 2⟩ "e1" "p1" 50
        none none).2 =
      (false, Msg.overAllocated "Alice"
        (sumPct (overlapping_for wStore "e1" ⟨2024, 1, 2⟩ none)) 50
        (sumPct (overlapping_for wStore "e1" ⟨2024, 1, 2⟩ none) + 50), none) :=
  ⟨c5_create_rejection_order.2.2.1 wStore "cccc3333-0000" ⟨2024, 1, 2⟩ "e1" "p1" 150
      (some "2024-13-40") none ⟨"e1", "Alice"⟩ ⟨"p1", "Apollo"⟩
      (by decide) (by decide) (by decide),
   c5_create_rejection_order.2.2.2.2.2.2 wStore "cccc3333-0000" ⟨2024, 1, 2⟩ "e1" "p1" 50
      none none ⟨"e1", "Alice"⟩ ⟨"p1", "Apollo"⟩ ⟨2024, 1, 2⟩ none
      (by decide) (by decide) (by decide) (by decide) (by decide) (by decide)
      (by decide) (by decide)⟩

/-- Counterexample to C4 as stated: updating the stored allocation with
percentage 0 (out of range) and malformed start date text "bad" returns the
invalid-start-date rejection, not the percentage-out-of-range rejection the
claim requires; in the update path the source parses dates before checking
the percentage. -/
theorem c4_counterexample :
    (update_allocation_async wStore "alloc-aaaa1111" (some 0) (some "bad") none).2 =
      (false, Msg.invalidStartDate "bad", none) ∧
    (update_allocation_async wStore "alloc-aaaa1111" (some 0) (some "bad") none).2 ≠
      (false, Msg.percentageOutOfRange, none) := by
  exact ⟨by decide, by decide⟩

/-- C4 amended: in the update path, after the allocation-exists and
associated-records checks, the source runs start-date parse, end-date parse,
end-after-start, and only then the percentage-range check; therefore for
every update whose supplied start date is malformed, the rejection is the
invalid-start-date one regardless of the supplied percentage.  Each conjunct
states that when the earlier checks pass and a given check fails, that
check's rejection is returned. -/
theorem c4_update_rejection_order :
    (∀ (s : Store) (aid : String) (pct : Option Int) (sd ed : Option String),
      get_allocation_by_id s aid = none →
      (update_allocation_async s aid pct sd ed).2 =
        (false, Msg.allocationNotFound aid, none)) ∧
    (∀ (s : Store) (aid : String) (pct : Option Int) (sd ed : Option String)
        (allocation : Allocation),
      get_allocation_by_id s aid = some allocation →
      get_engineer_by_id s allocation.engineer_id = none →
      (update_allocation_async s aid pct sd ed).2 =
        (false, Msg.associatedNotFound, none)) ∧
    (∀ (s : Store) (aid : String) (pct : Option Int) (sd ed : Option String)
        (allocation : Allocation) (e : Engineer),
      get_allocation_by_id s aid = some allocation →
      get_engineer_by_id s allocation.engineer_id = some e →
      get_project_by_id s allocation.project_id = none →
      (update_allocation_async s aid pct sd ed).2 =
        (false, Msg.associatedNotFound, none)) ∧
    (∀ (s : Store) (aid : String) (pct : Option Int) (sd ed : Option String)
        (allocation : Allocation) (e : Engineer) (p : Project),
      get_allocation_by_id s aid = some allocation →
      get_engineer_by_id s allocation.engineer_id = some e →
      get_project_by_id s allocation.project_id = some p →
      resolveDateOr allocation.start_date sd = none →
      (update_allocation_async s aid pct sd ed).2 =
        (false, Msg.invalidStartDate (sd.getD ""), none)) ∧
    (∀ (s : Store) (aid : String) (pct : Option Int) (sd ed : Option String)
        (allocation : Allocation) (e : Engineer) (p : Project) (ps : Date),
      get_allocation_by_id s aid = some allocation →
      get_engineer_by_id s allocation.engineer_id = some e →
      get_project_by_id s allocation.project_id = some p →
      resolveDateOr allocation.start_date sd = some ps →
      resolveEndOr allocation.end_date ed = none →
      (update_allocation_async s aid pct sd ed).2 =
        (false, Msg.invalidEndDate (ed.getD ""), none)) ∧
    (∀ (s : Store) (aid : String) (pct : Option Int) (sd ed : Option String)
        (allocation : Allocation) (e : Engineer) (p : Project) (ps : Date)
        (pe : Option Date),
      get_allocation_by_id s aid = some allocation →
      get_engineer_by_id s allocation.engineer_id = some e →
      get_project_by_id s allocation.project_id = some p →
      resolveDateOr allocation.start_date sd = some ps →
      resolveEndOr allocation.end_date ed = some pe →
      endNotAfter ps pe = true →
      (update_allocation_async s aid pct sd ed).2 =
        (false, Msg.endNotAfterStart, none)) ∧
    (∀ (s : Store) (aid : String) (pct : Option Int) (sd ed : Option String)
        (allocation : Allocation) (e : Engineer) (p : Project) (ps : Date)
        (pe : Option Date),
      get_allocation_by_id s aid = some allocation →
      get_engineer_by_id s allocation.engineer_id = some e →
      get_project_by_id s allocation.project_id = some p →
      resolveDateOr allocation.start_date sd = some ps →
      resolveEndOr allocation.end_date ed = some pe →
      endNotAfter ps pe = false →
      pctOutOfRange pct = true →
      (update_allocation_async s aid pct sd ed).2 =
        (false, Msg.percentageOutOfRange, none)) := by
  refine ⟨?_, ?_, ?_, ?_, ?_, ?_, ?_⟩
  · intro s aid pct sd ed hA
    simp only [update_allocation_async, hA]
  · intro s aid pct sd ed allocation hA hE
    simp only [update_allocation_async, hA, hE]
  · intro s aid pct sd ed allocation e hA hE hP
    simp only [update_allocation_async, hA, hE, hP]
  · intro s aid pct sd ed allocation e p hA hE hP hS
    simp only [update_allocation_async, hA, hE, hP, hS]
  · intro s aid pct sd ed allocation e p ps hA hE hP hS hEnd
    simp only [update_allocation_async, hA, hE, hP, hS, hEnd]
  · intro s aid pct sd ed allocation e p ps pe hA hE hP hS hEnd hOrd
    simp only [update_allocation_async, hA, hE, hP, hS, hEnd, hOrd]
    rw [if_pos trivial]
  · intro s aid pct sd ed allocation e p ps pe hA hE hP hS hEnd hOrd hpct
    simp only [update_allocation_async, hA, hE, hP, hS, hEnd, hOrd, hpct]
    rw [if_neg (by simp), if_pos trivial]

/-- Witness for the amended C4: the counterexample input (percentage 0 and
start text "bad") goes through the invalid-start-date conjunct. -/
theorem c4_update_rejection_order_witness :
    (update_allocation_async wStore "alloc-aaaa1111" (some 0) (some "bad") none).2 =
      (false, Msg.invalidStartDate "bad", none) :=
  c4_update_rejection_order.2.2.2.1 wStore "alloc-aaaa1111" (some 0) (some "bad")
    none ⟨"alloc-aaaa1111", "e1", "p1", 60, ⟨2024, 1, 1⟩, none⟩ ⟨"e1", "Alice"⟩
    ⟨"p1", "Apollo"⟩ (by decide) (by decide) (by decide) (by decide)

/-- C6: starting from a store with no allocations, after every sequence of
allocate/update operations (with fresh generated identifiers), no two
allocations of the same engineer to the same project have overlapping
ranges; moreover each path returns the duplicate-assignment rejection when
an allocation in the overlap set shares the project identifier and the
capacity total stays at or below 100. -/
theorem c6_duplicate_invariant :
    (∀ (engineers : List Engineer) (projects : List Project) (ops : List Op),
      freshRun ⟨engineers, projects, []⟩ ops = true →
      (execOps ⟨engineers, projects, []⟩ ops).allocations.Pairwise
        (fun a b => a.engineer_id = b.engineer_id → a.project_id = b.project_id →
          rangesOverlap a.start_date a.end_date b.start_date b.end_date = false)) ∧
    (∀ (s : Store) (u : String) (today : Date) (eid pid : String) (pct : Int)
        (sd ed : Option String) (e : Engineer) (p : Project) (ps : Date)
        (pe : Option Date) (d : Allocation),
      get_engineer_by_id s eid = some e →
      get_project_by_id s pid = some p →
      ¬(pct < 1 ∨ pct > 100) →
      resolveDateOr today sd = some ps →
      resolveEndOr none ed = some pe →
      endNotAfter ps pe = false →
      sumPct (overlapping_for s eid ps pe) + pct ≤ 100 →
      (overlapping_for s eid ps pe).find? (fun a => a.project_id == pid) = some d →
      (allocate_engineer_async s u today eid pid pct sd ed).2 =
        (false, Msg.duplicateAllocation e.name p.name d.start_date d.end_date, none)) ∧
    (∀ (s : Store) (aid : String) (pct : Option Int) (sd ed : Option String)
        (allocation : Allocation) (e : Engineer) (p : Project) (ps : Date)
        (pe : Option Date) (d : Allocation),
      get_allocation_by_id s aid = some allocation →
      get_engineer_by_id s allocation.engineer_id = some e →
      get_project_by_id s allocation.project_id = some p →
      resolveDateOr allocation.start_date sd = some ps →
      resolveEndOr allocation.end_date ed = some pe →
      endNotAfter ps pe = false →
      pctOutOfRange pct = false →
      sumPct (overlapping_for_update s allocation.engineer_id aid ps pe) +
        pct.getD allocation.allocation_percentage ≤ 100 →
      (overlapping_for_update s allocation.engineer_id aid ps pe).find?
        (fun a => a.project_id == allocation.project_id) = some d →
      (update_allocation_async s aid pct sd ed).2 =
        (false, Msg.duplicateAllocationUpdate e.name p.name d.start_date d.end_date
          d.id, none)) := by
  refine ⟨?_, ?_, ?_⟩
  · intro engineers projects ops hFresh
    have h0 : StoreInv ⟨engineers, projects, []⟩ :=
      ⟨by simp, by simp, List.Pairwise.nil, List.Pairwise.nil⟩
    exact (execOps_preserves ops _ h0 hFresh).2.2.2
  · intro s u today eid pid pct sd ed e p ps pe d hE hP h3 hS hEnd hOrd hle hDup
    simp only [allocate_engineer_async, hE, hP, hS, hEnd, hOrd, hDup]
    rw [if_neg h3, if_neg (by simp),
      if_neg (show ¬(overlapping_for s eid ps pe ≠ [] ∧
        sumPct (overlapping_for s eid ps pe) + pct > 100) from fun hc => by omega)]
  · intro s aid pct sd ed allocation e p ps pe d hA hE hP hS hEnd hOrd hpct hle hDup
    simp only [update_allocation_async, hA, hE, hP, hS, hEnd, hOrd, hpct, hDup]
    rw [if_neg (by simp), if_neg (by simp),
      if_neg (show ¬(overlapping_for_update s allocation.engineer_id aid ps pe ≠ [] ∧
        sumPct (overlapping_for_update s allocation.engineer_id aid ps pe) +
          pct.getD allocation.allocation_percentage > 100) from fun hc => by omega)]

/-- Witness for C6: a concrete run satisfies the invariant, and against
`wStore` a 10% request for the already-assigned project — with capacity total
70 at most 100 — returns the duplicate-assignment rejection. -/
theorem c6_duplicate_invariant_witness :
    (execOps ⟨[⟨"e1", "Alice"⟩], [⟨"p1", "Apollo"⟩, ⟨"p2", "Borealis"⟩], []⟩
      [Op.allocate "aaaa1111-0000" ⟨2024, 1, 1⟩ "e1" "p1" 60 none none]).allocations.Pairwise
      (fun a b => a.engineer_id = b.engineer_id → a.project_id = b.project_id →
        rangesOverlap a.start_date a.end_date b.start_date b.end_date = false) ∧
    (allocate_engineer_async wStore "dddd4444-0000" ⟨2024, 1, 2⟩ "e1" "p1" 10
        none none).2 =
      (false, Msg.duplicateAllocation "Alice" "Apollo" ⟨2024, 1, 1⟩ none, none) :=
  ⟨c6_duplicate_invariant.1 [⟨"e1", "Alice"⟩] [⟨"p1", "Apollo"⟩, ⟨"p2", "Borealis"⟩]
      [Op.allocate "aaaa1111-0000" ⟨2024, 1, 1⟩ "e1" "p1" 60 none none] (by decide),
   c6_duplicate_invariant.2.1 wStore "dddd4444-0000" ⟨2024, 1, 2⟩ "e1" "p1" 10
      none none ⟨"e1", "Alice"⟩ ⟨"p1", "Apollo"⟩ ⟨2024, 1, 2⟩ none
      ⟨"alloc-aaaa1111", "e1", "p1", 60, ⟨2024, 1, 1⟩, none⟩
      (by decide) (by decide) (by decide) (by decide) (by decide) (by decide)
      (by decide) (by decide)⟩

/-- C7: every rejected allocate or update call (success flag `false`) returns
no allocation record and leaves the store — engineers, projects and every
allocation — exactly as it was; and a well-formed create request whose end
date text is the malformed "2024-13-40" is rejected with the invalid-end-date
message, again leaving the store unchanged. -/
theorem c7_rejection_no_mutation :
    (∀ (s : Store) (u : String) (today : Date) (eid pid : String) (pct : Int)
        (sd ed : Option String),
      (allocate_engineer_async s u today eid pid pct sd ed).2.1 = false →
      (allocate_engineer_async s u today eid pid pct sd ed).1 = s ∧
      (allocate_engineer_async s u today eid pid pct sd ed).2.2.2 = none) ∧
    (∀ (s : Store) (aid : String) (pct : Option Int) (sd ed : Option String),
      (update_allocation_async s aid pct sd ed).2.1 = false →
      (update_allocation_async s aid pct sd ed).1 = s ∧
      (update_allocation_async s aid pct sd ed).2.2.2 = none) ∧
    (∀ (s : Store) (u : String) (today : Date) (eid pid : String) (pct : Int)
        (sd : Option String) (e : Engineer) (p : Project) (ps : Date),
      get_engineer_by_id s eid = some e →
      get_project_by_id s pid = some p →
      ¬(pct < 1 ∨ pct > 100) →
      resolveDateOr today sd = some ps →
      (allocate_engineer_async s u today eid pid pct sd (some "2024-13-40")).2 =
        (false, Msg.invalidEndDate "2024-13-40", none) ∧
      (allocate_engineer_async s u today eid pid pct sd (some "2024-13-40")).1 = s) := by
  refine ⟨?_, ?_, ?_⟩
  · intro s u today eid pid pct sd ed hfalse
    rcases allocate_cases s u today eid pid pct sd ed rfl with h | h
    · exact ⟨h.1, h.2.2⟩
    · obtain ⟨e, p, ps, pe, _, _, _, _, _, _, _, _, _, hr⟩ := h
      rw [hr] at hfalse
      simp at hfalse
  · intro s aid pct sd ed hfalse
    rcases update_cases s aid pct sd ed rfl with h | h
    · exact ⟨h.1, h.2.2⟩
    · obtain ⟨allocation, e, p, ps, pe, _, _, _, _, _, _, _, _, _, hr⟩ := h
      rw [hr] at hfalse
      simp at hfalse
  · intro s u today eid pid pct sd e p ps hE hP h3 hS
    have hEnd : resolveEndOr none (some "2024-13-40") = none := by decide
    simp only [allocate_engineer_async, hE, hP, hS, hEnd]
    rw [if_neg h3]
    exact ⟨rfl, rfl⟩

/-- Witness for C7: rejected calls on `wStore` (an over-capacity create and
an update of a missing allocation) leave the store unchanged with no record,
and the malformed end date "2024-13-40" yields the invalid-end-date
rejection. -/
theorem c7_rejection_no_mutation_witness :
    ((allocate_engineer_async wStore "eeee5555-0000" ⟨2024, 1, 2⟩ "e1" "p2" 50
        none none).1 = wStore ∧
      (allocate_engineer_async wStore "eeee5555-0000" ⟨2024, 1, 2⟩ "e1" "p2" 50
        none none).2.2.2 = none) ∧
    ((update_allocation_async wStore "alloc-zzzz" (some 10) none none).1 = wStore ∧
      (update_allocation_async wStore "alloc-zzzz" (some 10) none none).2.2.2 = none) ∧
    ((allocate_engineer_async wStore "eeee5555-0000" ⟨2024, 1, 2⟩ "e1" "p2" 30
        none (some "2024-13-40")).2 =
      (false, Msg.invalidEndDate "2024-13-40", none) ∧
      (allocate_engineer_async wStore "eeee5555-0000" ⟨2024, 1, 2⟩ "e1" "p2" 30
        none (some "2024-13-40")).1 = wStore) :=
  ⟨c7_rejection_no_mutation.1 wStore "eeee5555-0000" ⟨2024, 1, 2⟩ "e1" "p2" 50
      none none (by decide),
   c7_rejection_no_mutation.2.1 wStore "alloc-zzzz" (some 10) none none (by decide),
   c7_rejection_no_mutation.2.2 wStore "eeee5555-0000" ⟨2024, 1, 2⟩ "e1" "p2" 30
      none ⟨"e1", "Alice"⟩ ⟨"p2", "Borealis"⟩ ⟨2024, 1, 2⟩
      (by decide) (by decide) (by decide) (by decide)⟩

/-- C8: a successful update mutates exactly the targeted allocation's
percentage, start and end dates — its id, engineer and project are the
stored ones — every other allocation (and the engineer/project collections)
is untouched, omitted parameters keep the stored values, and an update whose
new range overlaps no OTHER allocation of the engineer succeeds, i.e. the
allocation being updated is excluded from its own overlap set. -/
theorem c8_update_frame :
    (∀ (s : Store) (aid : String) (pct : Option Int) (sd ed : Option String),
      (update_allocation_async s aid pct sd ed).2.1 = true →
      ∃ allocation upd ps pe,
        get_allocation_by_id s aid = some allocation ∧
        resolveDateOr allocation.start_date sd = some ps ∧
        resolveEndOr allocation.end_date ed = some pe ∧
        upd.id = allocation.id ∧
        upd.engineer_id = allocation.engineer_id ∧
        upd.project_id = allocation.project_id ∧
        upd.allocation_percentage = pct.getD allocation.allocation_percentage ∧
        upd.start_date = ps ∧
        upd.end_date = pe ∧
        (update_allocation_async s aid pct sd ed).2.2.2 = some upd ∧
        (update_allocation_async s aid pct sd ed).1.engineers = s.engineers ∧
        (update_allocation_async s aid pct sd ed).1.projects = s.projects ∧
        (update_allocation_async s aid pct sd ed).1.allocations =
          setAllocation s.allocations aid upd ∧
        (pct = none → upd.allocation_percentage = allocation.allocation_percentage) ∧
        (sd = none → upd.start_date = allocation.start_date) ∧
        (ed = none → upd.end_date = allocation.end_date)) ∧
    (∀ (l : List Allocation) (aid : String) (na a : Allocation),
      a ∈ l → a.id ≠ aid → a ∈ setAllocation l aid na) ∧
    (∀ (s : Store) (aid : String) (pct : Option Int) (sd ed : Option String)
        (allocation : Allocation) (e : Engineer) (p : Project) (ps : Date)
        (pe : Option Date),
      get_allocation_by_id s aid = some allocation →
      get_engineer_by_id s allocation.engineer_id = some e →
      get_project_by_id s allocation.project_id = some p →
      resolveDateOr allocation.start_date sd = some ps →
      resolveEndOr allocation.end_date ed = some pe →
      endNotAfter ps pe = false →
      pctOutOfRange pct = false →
      overlapping_for_update s allocation.engineer_id aid ps pe = [] →
      (update_allocation_async s aid pct sd ed).2.1 = true) := by
  refine ⟨?_, ?_, ?_⟩
  · intro s aid pct sd ed hflag
    rcases update_cases s aid pct sd ed rfl with h | h
    · rw [h.2.1] at hflag
      simp at hflag
    · obtain ⟨allocation, e, p, ps, pe, hA, hE, hP, hS, hEnd, hOrd, hpctOk,
        hCap, hDup, hr⟩ := h
      refine ⟨allocation,
        { allocation with
          allocation_percentage := pct.getD allocation.allocation_percentage
          start_date := ps
          end_date := pe }, ps, pe, hA, hS, hEnd, rfl, rfl, rfl, rfl, rfl, rfl,
        by rw [hr], by rw [hr], by rw [hr], by rw [hr], ?_, ?_, ?_⟩
      · intro h
        subst h
        rfl
      · intro h
        subst h
        exact (Option.some.inj hS).symm
      · intro h
        subst h
        exact (Option.some.inj hEnd).symm
  · intro l aid na a ha hne
    exact mem_of_mem_setAllocation_ne ha hne
  · intro s aid pct sd ed allocation e p ps pe hA hE hP hS hEnd hOrd hpctF hEmpty
    simp only [update_allocation_async, hA, hE, hP, hS, hEnd, hOrd, hpctF, hEmpty]
    rw [if_neg (by simp), if_neg (by simp), if_neg (by simp)]
    simp only [List.find?_nil]

/-- Witness for C8: updating `wStore`'s allocation to 80% with new dates
succeeds (its own range would collide only with itself, which is excluded),
and the frame conjunct applies to that successful call. -/
theorem c8_update_frame_witness :
    (∃ allocation upd ps pe,
      get_allocation_by_id wStore "alloc-aaaa1111" = some allocation ∧
      resolveDateOr allocation.start_date (some "2024-02-01") = some ps ∧
      resolveEndOr allocation.end_date (some "2024-03-01") = some pe ∧
      upd.id = allocation.id ∧
      upd.engineer_id = allocation.engineer_id ∧
      upd.project_id = allocation.project_id ∧
      upd.allocation_percentage = (some (80 : Int)).getD allocation.allocation_percentage ∧
      upd.start_date = ps ∧
      upd.end_date = pe ∧
      (update_allocation_async wStore "alloc-aaaa1111" (some 80) (some "2024-02-01")
        (some "2024-03-01")).2.2.2 = some upd ∧
      (update_allocation_async wStore "alloc-aaaa1111" (some 80) (some "2024-02-01")
        (some "2024-03-01")).1.engineers = wStore.engineers ∧
      (update_allocation_async wStore "alloc-aaaa1111" (some 80) (some "2024-02-01")
        (some "2024-03-01")).1.projects = wStore.projects ∧
      (update_allocation_async wStore "alloc-aaaa1111" (some 80) (some "2024-02-01")
        (some "2024-03-01")).1.allocations =
        setAllocation wStore.allocations "alloc-aaaa1111" upd ∧
      (some (80 : Int) = none → upd.allocation_percentage = allocation.allocation_percentage) ∧
      (some "2024-02-01" = none → upd.start_date = allocation.start_date) ∧
      (some "2024-03-01" = none → upd.end_date = allocation.end_date)) ∧
    (update_allocation_async wStore "alloc-aaaa1111" (some 80) (some "2024-02-01")
      (some "2024-03-01")).2.1 = true :=
  ⟨c8_update_frame.1 wStore "alloc-aaaa1111" (some 80) (some "2024-02-01")
      (some "2024-03-01") (by decide),
   c8_update_frame.2.2 wStore "alloc-aaaa1111" (some 80) (some "2024-02-01")
      (some "2024-03-01") ⟨"alloc-aaaa1111", "e1", "p1", 60, ⟨2024, 1, 1⟩, none⟩
      ⟨"e1", "Alice"⟩ ⟨"p1", "Apollo"⟩ ⟨2024, 2, 1⟩ (some ⟨2024, 3, 1⟩)
      (by decide) (by decide) (by decide) (by decide) (by decide) (by decide)
      (by decide) (by decide)⟩

/-- A concrete store with no allocations, for the C9 counterexample. -/
def wStore2 : Store :=
  ⟨[⟨"e1", "Alice"⟩], [⟨"p1", "Apollo"⟩, ⟨"p2", "Borealis"⟩], []⟩

/-- Counterexample to C9 as stated: the service never checks the generated
identifier against the store, so when the 8-character uuid prefix repeats
(possible with `uuid.uuid4()` truncated to 8 hex characters) a second
accepted allocation receives an identifier equal to one already stored. -/
theorem c9_counterexample :
    (allocate_engineer_async
      (allocate_engineer_async wStore2 "deadbeef-0000" ⟨2024, 1, 1⟩ "e1" "p1" 40
        (some "2024-01-01") (some "2024-02-01")).1
      "deadbeef-0000" ⟨2024, 1, 1⟩ "e1" "p2" 40
      (some "2024-03-01") (some "2024-04-01")).2.1 = true ∧
    (allocate_engineer_async
      (allocate_engineer_async wStore2 "deadbeef-0000" ⟨2024, 1, 1⟩ "e1" "p1" 40
        (some "2024-01-01") (some "2024-02-01")).1
      "deadbeef-0000" ⟨2024, 1, 1⟩ "e1" "p2" 40
      (some "2024-03-01") (some "2024-04-01")).2.2.2 =
      some ⟨"alloc-deadbeef", "e1", "p2", 40, ⟨2024, 3, 1⟩, some ⟨2024, 4, 1⟩⟩ ∧
    "alloc-deadbeef" ∈
      (allocate_engineer_async wStore2 "deadbeef-0000" ⟨2024, 1, 1⟩ "e1" "p1" 40
        (some "2024-01-01") (some "2024-02-01")).1.allocations.map
        (fun a => a.id) := by
  refine ⟨by decide, by decide, by decide⟩

/-- C9 amended: every allocation created by a successful call receives the
identifier `"alloc-" ++` the first 8 characters of the drawn uuid string
(hex characters for `uuid.uuid4()` output), and that identifier is distinct
from every identifier already stored provided the generated prefix does not
collide with one of them — the service performs no uniqueness check of its
own. -/
theorem c9_id_generation (s : Store) (u : String) (today : Date)
    (eid pid : String) (pct : Int) (sd ed : Option String)
    (hflag : (allocate_engineer_async s u today eid pid pct sd ed).2.1 = true) :
    ∃ na, (allocate_engineer_async s u today eid pid pct sd ed).2.2.2 = some na ∧
      na.id = "alloc-" ++ u.take 8 ∧
      (("alloc-" ++ u.take 8) ∉ s.allocations.map (fun a => a.id) →
        ∀ a ∈ s.allocations, a.id ≠ na.id) := by
  rcases allocate_cases s u today eid pid pct sd ed rfl with h | h
  · rw [h.2.1] at hflag
    simp at hflag
  · obtain ⟨e, p, ps, pe, hE, hP, h1, h2, hS, hEnd, hOrd, hCap, hDup, hr⟩ := h
    refine ⟨{ id := "alloc-" ++ u.take 8, engineer_id := eid, project_id := pid,
              allocation_percentage := pct, start_date := ps, end_date := pe },
      by rw [hr], rfl, ?_⟩
    intro hfresh a ha heq
    have h0 : a.id ∈ s.allocations.map (fun a => a.id) := List.mem_map_of_mem _ ha
    rw [heq] at h0
    exact hfresh h0

/-- Witness for C9 amended: a successful create against `wStore2` returns a
record whose identifier is `alloc-ffff6666` and is distinct from all stored
identifiers. -/
theorem c9_id_generation_witness :
    ∃ na, (allocate_engineer_async wStore2 "ffff6666-0000" ⟨2024, 1, 1⟩ "e1" "p1"
        50 none none).2.2.2 = some na ∧
      na.id = "alloc-" ++ "ffff6666-0000".take 8 ∧
      (("alloc-" ++ "ffff6666-0000".take 8) ∉ wStore2.allocations.map (fun a => a.id) →
        ∀ a ∈ wStore2.allocations, a.id ≠ na.id) :=
  c9_id_generation wStore2 "ffff6666-0000" ⟨2024, 1, 1⟩ "e1" "p1" 50 none none
    (by decide)

/-- C10: for both operations the success flag is `true` exactly when the
third tuple component is non-`None` — so every rejection returns `None` as
the record — and on success the returned record is moreover present in the
resulting store's allocation list (the created or updated record itself). -/
theorem c10_flag_iff_record :
    (∀ (s : Store) (u : String) (today : Date) (eid pid : String) (pct : Int)
        (sd ed : Option String),
      (allocate_engineer_async s u today eid pid pct sd ed).2.1 = true ↔
      (allocate_engineer_async s u today eid pid pct sd ed).2.2.2 ≠ none) ∧
    (∀ (s : Store) (aid : String) (pct : Option Int) (sd ed : Option String),
      (update_allocation_async s aid pct sd ed).2.1 = true ↔
      (update_allocation_async s aid pct sd ed).2.2.2 ≠ none) ∧
    (∀ (s : Store) (u : String) (today : Date) (eid pid : String) (pct : Int)
        (sd ed : Option String),
      (allocate_engineer_async s u today eid pid pct sd ed).2.1 = true →
      ∃ a, (allocate_engineer_async s u today eid pid pct sd ed).2.2.2 = some a ∧
        a ∈ (allocate_engineer_async s u today eid pid pct sd ed).1.allocations) ∧
    (∀ (s : Store) (aid : String) (pct : Option Int) (sd ed : Option String),
      (update_allocation_async s aid pct sd ed).2.1 = true →
      ∃ a, (update_allocation_async s aid pct sd ed).2.2.2 = some a ∧
        a ∈ (update_allocation_async s aid pct sd ed).1.allocations) := by
  refine ⟨?_, ?_, ?_, ?_⟩
  · intro s u today eid pid pct sd ed
    rcases allocate_cases s u today eid pid pct sd ed rfl with h | h
    · rw [h.2.1, h.2.2]
      simp
    · obtain ⟨e, p, ps, pe, hE, hP, h1, h2, hS, hEnd, hOrd, hCap, hDup, hr⟩ := h
      rw [hr]
      exact iff_of_true rfl (by simp)
  · intro s aid pct sd ed
    rcases update_cases s aid pct sd ed rfl with h | h
    · rw [h.2.1, h.2.2]
      simp
    · obtain ⟨allocation, e, p, ps, pe, hA, hE, hP, hS, hEnd, hOrd, hpctOk,
        hCap, hDup, hr⟩ := h
      rw [hr]
      exact iff_of_true rfl (by simp)
  · intro s u today eid pid pct sd ed hflag
    rcases allocate_cases s u today eid pid pct sd ed rfl with h | h
    · rw [h.2.1] at hflag
      simp at hflag
    · obtain ⟨e, p, ps, pe, hE, hP, h1, h2, hS, hEnd, hOrd, hCap, hDup, hr⟩ := h
      rw [hr]
      refine ⟨_, rfl, ?_⟩
      exact List.mem_append_right _ (List.mem_singleton_self _)
  · intro s aid pct sd ed hflag
    rcases update_cases s aid pct sd ed rfl with h | h
    · rw [h.2.1] at hflag
      simp at hflag
    · obtain ⟨allocation, e, p, ps, pe, hA, hE, hP, hS, hEnd, hOrd, hpctOk,
        hCap, hDup, hr⟩ := h
      have hA2 : s.allocations.find? (fun a => a.id == aid) = some allocation := hA
      have hAmem : allocation ∈ s.allocations := List.mem_of_find?_eq_some hA2
      have hAid : allocation.id = aid := by
        have h0 := List.find?_some hA2
        simpa using h0
      rw [hr]
      refine ⟨_, rfl, ?_⟩
      exact setAllocation_mem_self ⟨allocation, hAmem, hAid⟩

end PAM




